import Mathlib

/-!
Verification of the china_location repository:
the polygon containment engine and hierarchical resolver
of coordinate_query.py, the boundary-data parser of geo_data_loader.py,
and the circular range query of vehicle_tracker.py.

Python floats are embedded as exact rationals where only field
operations occur; the transcendental primitives of vehicle_tracker.py
are embedded over the reals.
-/

namespace ChinaLocation

/-! ## Containment engine: coordinate_query.point_in_polygon -/

/-- Crossing test of one edge of the ray-casting loop, edge endpoints
given in source order: a is polygon[i], b is polygon[j]. This is the
condition of the if statement inside point_in_polygon. -/
def pipTest (lon lat : ℚ) (a b : ℚ × ℚ) : Bool :=
  (decide (a.2 > lat) != decide (b.2 > lat)) &&
    decide (lon < (b.1 - a.1) * (lat - a.2) / (b.2 - a.2) + a.1)

/-- coordinate_query.point_in_polygon: ray casting over the closed ring.
The loop index i runs over the vertices; j is n-1 for i = 0 and i-1
afterwards, giving every edge including the wrap-around one. -/
def point_in_polygon (lon lat : ℚ) (polygon : List (ℚ × ℚ)) : Bool :=
  let n := polygon.length
  if n < 3 then false
  else
    (List.range n).foldl
      (fun inside i =>
        if pipTest lon lat (polygon.getD i (0, 0))
            (polygon.getD (if i = 0 then n - 1 else i - 1) (0, 0))
        then !inside else inside)
      false

/-- Reference notion from the specification: an edge is a crossing
candidate iff exactly one endpoint has latitude strictly greater than
the query latitude. -/
def isCrossingCandidate (lat : ℚ) (vi vj : ℚ × ℚ) : Bool :=
  decide (vi.2 > lat) != decide (vj.2 > lat)

/-- Reference notion from the specification: the longitude of the edge
at the query latitude, by linear interpolation. -/
def edgeLonAt (lat : ℚ) (vi vj : ℚ × ℚ) : ℚ :=
  vi.1 + (vj.1 - vi.1) * (lat - vi.2) / (vj.2 - vi.2)

/-- Reference notion from the specification: the inside flag is toggled
for a candidate edge iff the query longitude is less than the
interpolated edge longitude. -/
def rayCastToggle (lon lat : ℚ) (vi vj : ℚ × ℚ) : Bool :=
  isCrossingCandidate lat vi vj && decide (lon < edgeLonAt lat vi vj)

/-- The ray-casting reference definition, written from the
specification text: rings with fewer than 3 points contain nothing;
otherwise iterate over all edges (vi, v at i+1 mod n), wrap-around
included, and the result is the parity of the number of toggling
edges. -/
def rayCastRef (lon lat : ℚ) (ring : List (ℚ × ℚ)) : Bool :=
  let n := ring.length
  if n < 3 then false
  else
    decide ((List.range n).countP
      (fun i => rayCastToggle lon lat (ring.getD i (0, 0))
        (ring.getD ((i + 1) % n) (0, 0))) % 2 = 1)

theorem pipTest_eq_toggle (lon lat : ℚ) (a b : ℚ × ℚ) :
    pipTest lon lat a b = rayCastToggle lon lat a b := by
  simp [pipTest, rayCastToggle, isCrossingCandidate, edgeLonAt, add_comm]

theorem rayCastToggle_swap (lon lat : ℚ) (a b : ℚ × ℚ) :
    rayCastToggle lon lat a b = rayCastToggle lon lat b a := by
  rcases a with ⟨x1, y1⟩
  rcases b with ⟨x2, y2⟩
  unfold rayCastToggle isCrossingCandidate edgeLonAt
  simp only
  by_cases h1 : y1 > lat <;> by_cases h2 : y2 > lat
  · simp [h1, h2]
  · have hne : y2 - y1 ≠ 0 := sub_ne_zero.mpr (by intro h; rw [h] at h2; exact h2 h1)
    have hne2 : y1 - y2 ≠ 0 := sub_ne_zero.mpr (by intro h; rw [h] at h1; exact h2 h1)
    have hx : x1 + (x2 - x1) * (lat - y1) / (y2 - y1)
        = x2 + (x1 - x2) * (lat - y2) / (y1 - y2) := by
      field_simp
      ring
    simp [h1, h2, hx]
  · have hne : y2 - y1 ≠ 0 := sub_ne_zero.mpr (by intro h; rw [h] at h2; exact h1 h2)
    have hne2 : y1 - y2 ≠ 0 := sub_ne_zero.mpr (by intro h; rw [h] at h1; exact h1 h2)
    have hx : x1 + (x2 - x1) * (lat - y1) / (y2 - y1)
        = x2 + (x1 - x2) * (lat - y2) / (y1 - y2) := by
      field_simp
      ring
    simp [h1, h2, hx]
  · simp [h1, h2]

theorem foldl_toggle {α : Type} (p : α → Bool) (l : List α) (b : Bool) :
    l.foldl (fun inside i => if p i then !inside else inside) b
      = b.xor (decide (l.countP p % 2 = 1)) := by
  induction l generalizing b with
  | nil => simp
  | cons x xs ih =>
    simp only [List.foldl_cons, ih, List.countP_cons]
    by_cases h : p x
    · have hmod : ((xs.countP p + 1) % 2 = 1) = ¬(xs.countP p % 2 = 1) :=
        propext (by omega)
      simp only [h, if_true, if_pos, hmod, decide_not]
      cases b <;> cases hd : decide (xs.countP p % 2 = 1) <;> rfl
    · simp [h]

theorem countP_range_rotate (q : ℕ → Bool) (m : ℕ) :
    (List.range (m + 1)).countP (fun i => q ((i + m) % (m + 1)))
      = (List.range (m + 1)).countP q := by
  have h0 : (0 + m) % (m + 1) = m := by
    rw [Nat.zero_add]
    exact Nat.mod_eq_of_lt (Nat.lt_succ_self m)
  have hcongr : (List.range m).countP
      ((fun i => q ((i + m) % (m + 1))) ∘ Nat.succ) = (List.range m).countP q := by
    apply List.countP_congr
    intro x hx
    have hxm : x < m := List.mem_range.mp hx
    have hsh : Nat.succ x + m = x + (m + 1) := by omega
    have hx2 : (Nat.succ x + m) % (m + 1) = x := by
      rw [hsh, Nat.add_mod_right]
      exact Nat.mod_eq_of_lt (by omega)
    simp [hx2]
  conv_lhs => rw [List.range_succ_eq_map]
  rw [List.countP_cons, List.countP_map, hcongr]
  simp only [h0]
  rw [List.range_succ, List.countP_append]
  simp [List.countP_cons]

theorem point_in_polygon_eq_rayCastRef (lon lat : ℚ) (ring : List (ℚ × ℚ)) :
    point_in_polygon lon lat ring = rayCastRef lon lat ring := by
  by_cases h : ring.length < 3
  · simp [point_in_polygon, rayCastRef, h]
  · obtain ⟨m, hm⟩ : ∃ m, ring.length = m + 1 := ⟨ring.length - 1, by omega⟩
    simp only [point_in_polygon, rayCastRef, h, if_neg, if_false]
    rw [foldl_toggle]
    simp only [Bool.false_xor, hm]
    have key : ∀ i ∈ List.range (m + 1),
        pipTest lon lat (ring.getD i (0, 0))
            (ring.getD (if i = 0 then m + 1 - 1 else i - 1) (0, 0))
          = (fun k => rayCastToggle lon lat (ring.getD k (0, 0))
              (ring.getD ((k + 1) % (m + 1)) (0, 0))) ((i + m) % (m + 1)) := by
      intro i hi
      have hilt : i < m + 1 := List.mem_range.mp hi
      rw [pipTest_eq_toggle, rayCastToggle_swap]
      simp only
      rcases Nat.eq_zero_or_pos i with hi0 | hipos
      · have hk : (i + m) % (m + 1) = m := by
          rw [hi0, Nat.zero_add]
          exact Nat.mod_eq_of_lt (Nat.lt_succ_self m)
        rw [hk, hi0]
        simp [Nat.mod_self]
      · have hk : (i + m) % (m + 1) = i - 1 := by
          have h2 : i + m = (i - 1) + (m + 1) := by omega
          rw [h2, Nat.add_mod_right]
          exact Nat.mod_eq_of_lt (by omega)
        have h3 : (i - 1 + 1) % (m + 1) = i := by
          have h4 : i - 1 + 1 = i := by omega
          rw [h4]
          exact Nat.mod_eq_of_lt hilt
        rw [hk, if_neg (by omega : ¬ i = 0), h3]
    have hcount : (List.range (m + 1)).countP
        (fun i => pipTest lon lat (ring.getD i (0, 0))
          (ring.getD (if i = 0 then m + 1 - 1 else i - 1) (0, 0)))
        = (List.range (m + 1)).countP
            (fun k => rayCastToggle lon lat (ring.getD k (0, 0))
              (ring.getD ((k + 1) % (m + 1)) (0, 0))) :=
      (List.countP_congr (fun x hx => by rw [key x hx])).trans
        (countP_range_rotate (fun k => rayCastToggle lon lat (ring.getD k (0, 0))
          (ring.getD ((k + 1) % (m + 1)) (0, 0))) m)
    rw [hcount]

/-! ## Division safety of the ray-casting loop -/

/-- Variant of the edge test that makes the division explicit: it
returns none exactly when the interpolation division would be evaluated
with a zero denominator. -/
def pipTestChecked (lon lat : ℚ) (a b : ℚ × ℚ) : Option Bool :=
  if decide (a.2 > lat) != decide (b.2 > lat) then
    if b.2 - a.2 = 0 then none
    else some (decide (lon < (b.1 - a.1) * (lat - a.2) / (b.2 - a.2) + a.1))
  else some false

/-- point_in_polygon with the division-by-zero branch made observable:
the whole computation returns none if any evaluated edge would divide
by zero. -/
def point_in_polygonChecked (lon lat : ℚ) (polygon : List (ℚ × ℚ)) : Option Bool :=
  let n := polygon.length
  if n < 3 then some false
  else
    (List.range n).foldl
      (fun acc i => acc.bind fun inside =>
        (pipTestChecked lon lat (polygon.getD i (0, 0))
            (polygon.getD (if i = 0 then n - 1 else i - 1) (0, 0))).map
          fun t => if t then !inside else inside)
      (some false)

theorem pipTestChecked_eq (lon lat : ℚ) (a b : ℚ × ℚ) :
    pipTestChecked lon lat a b = some (pipTest lon lat a b) := by
  unfold pipTestChecked pipTest
  by_cases hc : decide (a.2 > lat) != decide (b.2 > lat)
  · have hne : b.2 - a.2 ≠ 0 := by
      intro h
      have hba : b.2 = a.2 := by linarith [sub_eq_zero.mp h]
      rw [hba] at hc
      simp at hc
    simp [hc, hne]
  · simp [hc]

theorem foldl_bind_checked {α : Type} (step : Bool → α → Bool)
    (stepOpt : Bool → α → Option Bool) (l : List α) (b : Bool)
    (hpt : ∀ c x, stepOpt c x = some (step c x)) :
    l.foldl (fun acc i => acc.bind fun inside => stepOpt inside i) (some b)
      = some (l.foldl step b) := by
  induction l generalizing b with
  | nil => rfl
  | cons x xs ih =>
    rw [List.foldl_cons, List.foldl_cons]
    have hhead : ((some b).bind fun inside => stepOpt inside x) = some (step b x) := by
      rw [Option.some_bind]
      exact hpt b x
    rw [hhead]
    exact ih (step b x)

theorem point_in_polygonChecked_eq (lon lat : ℚ) (polygon : List (ℚ × ℚ)) :
    point_in_polygonChecked lon lat polygon = some (point_in_polygon lon lat polygon) := by
  unfold point_in_polygonChecked point_in_polygon
  by_cases h : polygon.length < 3
  · simp [h]
  · simp only [h, if_neg, if_false]
    refine foldl_bind_checked _ _ _ _ ?_
    intro c x
    rw [pipTestChecked_eq]
    simp [pipTest]

/-! ## Bounding boxes and regions: coordinate_query and geo_data_loader -/

/-- coordinate_query.point_in_bbox: inclusive range check on both axes.
The bbox components are (min lon, min lat, max lon, max lat). -/
def point_in_bbox (lon lat : ℚ) (bbox : ℚ × ℚ × ℚ × ℚ) : Bool :=
  decide (bbox.1 ≤ lon ∧ lon ≤ bbox.2.2.1) && decide (bbox.2.1 ≤ lat ∧ lat ≤ bbox.2.2.2)

/-- geo_data_loader.Region. -/
structure Region where
  id : ℤ
  pid : ℤ
  deep : ℤ
  name : String
  ext_path : String
  center : Option (ℚ × ℚ)
  bbox : Option (ℚ × ℚ × ℚ × ℚ)
  polygons : List (List (ℚ × ℚ))
deriving DecidableEq

/-- coordinate_query.point_in_region: bbox rejection first, then the
union over the rings of the region. -/
def point_in_region (lon lat : ℚ) (region : Region) : Bool :=
  match region.bbox with
  | none => false
  | some bbox =>
    if !point_in_bbox lon lat bbox then false
    else region.polygons.any (fun polygon => point_in_polygon lon lat polygon)

/-- The in-memory state of geo_data_loader.GeoDataLoader: the id-keyed
region map in insertion order, the three per-level lists, and the
loaded flag. -/
structure LoaderState where
  regions : List (ℤ × Region)
  provinces : List Region
  cities : List Region
  districts : List Region
  loaded : Bool
deriving DecidableEq

/-- Python str.split with no separator: split on whitespace runs,
dropping empty tokens. -/
def pySplit (s : String) : List String :=
  (s.split (fun c => c.isWhitespace)).filter (fun t => t ≠ "")

/-- The dictionary returned by CoordinateQuery.query. -/
structure QueryResult where
  province : Option String
  city : Option String
  district : Option String
  full_path : Option String
  region : Option Region
deriving DecidableEq

/-- The initial all-None dictionary of CoordinateQuery.query. -/
def emptyResult : QueryResult :=
  { province := none, city := none, district := none, full_path := none, region := none }

/-- CoordinateQuery.query: scan districts first, then cities, then
provinces, each in store order, returning at the first containing
region; with no match anywhere the initial all-None result is
returned. -/
def query (loader : LoaderState) (lon lat : ℚ) : QueryResult :=
  match loader.districts.find? (fun d => point_in_region lon lat d) with
  | some district =>
    let parts := pySplit district.ext_path
    { province := parts.get? 0, city := parts.get? 1,
      district := some district.name,
      full_path := some district.ext_path, region := some district }
  | none =>
    match loader.cities.find? (fun c => point_in_region lon lat c) with
    | some city =>
      let parts := pySplit city.ext_path
      { province := parts.get? 0, city := some city.name, district := none,
        full_path := some city.ext_path, region := some city }
    | none =>
      match loader.provinces.find? (fun p => point_in_region lon lat p) with
      | some province =>
        { province := some province.name, city := none, district := none,
          full_path := some province.ext_path, region := some province }
      | none => emptyResult

/-- coordinate_query.dms_to_decimal. -/
def dms_to_decimal (degrees minutes : ℤ) (seconds : ℚ) : ℚ :=
  (degrees : ℚ) + (minutes : ℚ) / 60 + seconds / 3600

/-! ## Boundary data parsing: geo_data_loader._parse_polygon and load

A CSV cell is a string in the source; here a cell is abstracted by the
outcome of each parse the loader applies to it. A numeric token is the
outcome of a float() call; a coordinate token is the outcome of
splitting one comma-separated coordinate on a space. -/

/-- Outcome of float() on one textual number: the parsed rational, or a
ValueError. -/
inductive NumTok where
  | ok (q : ℚ)
  | bad
deriving DecidableEq

/-- One comma-separated coordinate of a boundary part, after strip and
split on a space: exactly two number tokens, a blank token (skipped by
the continue), or a token splitting into a different arity (silently
skipped by the len check). -/
inductive CoordTok where
  | pair (x y : NumTok)
  | blank
  | other
deriving DecidableEq

/-- One semicolon-separated part of the boundary string, reduced to the
coordinate tokens of its outer ring: the source drops everything after
a hole marker before reading coordinates. -/
abbrev Part := List CoordTok

/-- The running min/max envelope registers of _parse_polygon. The
source initializes them to infinities; none stands for the untouched
registers. -/
structure Env where
  minLon : ℚ
  minLat : ℚ
  maxLon : ℚ
  maxLat : ℚ
deriving DecidableEq

def updEnv (e : Option Env) (p : ℚ × ℚ) : Option Env :=
  match e with
  | none => some { minLon := p.1, minLat := p.2, maxLon := p.1, maxLat := p.2 }
  | some e => some { minLon := min e.minLon p.1, minLat := min e.minLat p.2,
                     maxLon := max e.maxLon p.1, maxLat := max e.maxLat p.2 }

/-- The inner coordinate loop of _parse_polygon on one part: returns
the points read, the envelope registers after them, and whether a
float() ValueError aborted the parse. A bad number aborts before its
point is recorded. -/
def parseCoords : List CoordTok → Option Env → List (ℚ × ℚ) × Option Env × Bool
  | [], e => ([], e, false)
  | t :: ts, e =>
    match t with
    | .blank => parseCoords ts e
    | .other => parseCoords ts e
    | .pair (.ok x) (.ok y) =>
      let r := parseCoords ts (updEnv e (x, y))
      ((x, y) :: r.1, r.2.1, r.2.2)
    | .pair _ _ => ([], e, true)

/-- The outer part loop of _parse_polygon: a part contributes a ring
iff it yields at least 3 points; a ValueError ends the whole loop,
keeping the rings gathered so far and the envelope registers as they
stand. -/
def parseParts : List Part → List (List (ℚ × ℚ)) → Option Env →
    List (List (ℚ × ℚ)) × Option Env
  | [], acc, e => (acc, e)
  | part :: rest, acc, e =>
    let r := parseCoords part e
    if r.2.2 then (acc, r.2.1)
    else parseParts rest (if 3 ≤ r.1.length then acc ++ [r.1] else acc) r.2.1

/-- geo_data_loader._parse_polygon: rings plus bounding box; the box is
produced from the envelope registers only when at least one ring was
kept. -/
def parse_polygon (parts : List Part) : List (List (ℚ × ℚ)) × Option (ℚ × ℚ × ℚ × ℚ) :=
  let r := parseParts parts [] none
  (r.1, if r.1.isEmpty then none
        else r.2.map (fun e => (e.minLon, e.minLat, e.maxLon, e.maxLat)))

/-- All points the parse reads before it finishes or aborts, in order,
across every part: also the points of parts later discarded for having
fewer than 3 points, and the points read before a ValueError. -/
def parsedPoints : List Part → List (ℚ × ℚ)
  | [] => []
  | part :: rest =>
    let r := parseCoords part none
    if r.2.2 then r.1 else r.1 ++ parsedPoints rest

/-- Min/max envelope of a point list, none for the empty list. -/
def envelope (pts : List (ℚ × ℚ)) : Option (ℚ × ℚ × ℚ × ℚ) :=
  (pts.foldl updEnv none).map (fun e => (e.minLon, e.minLat, e.maxLon, e.maxLat))

/-- geo_data_loader._parse_center on the abstracted geo cell: none for
an empty or EMPTY cell; exactly two cleanly parsed numbers give the
center, anything else gives none. -/
def parse_center (geo : Option (List NumTok)) : Option (ℚ × ℚ) :=
  match geo with
  | none => none
  | some toks =>
    match toks with
    | [NumTok.ok x, NumTok.ok y] => some (x, y)
    | _ => none

/-- One CSV cell, abstracted by the outcome of each parse the loader
can apply to it. -/
structure Cell where
  intVal : Option ℤ
  strVal : String
  centerVal : Option (List NumTok)
  polyVal : List Part
deriving DecidableEq

def defaultCell : Cell := { intVal := none, strVal := "", centerVal := none, polyVal := [] }

/-- Python dict assignment regions[id] = region: replace in place when
the key exists, else append. -/
def dictInsert (m : List (ℤ × Region)) (k : ℤ) (v : Region) : List (ℤ × Region) :=
  if m.any (fun kv => kv.1 = k) then m.map (fun kv => if kv.1 = k then (k, v) else kv)
  else m ++ [(k, v)]

/-- The Region built by GeoDataLoader.load from one row of at least six
cells. -/
def mkRegion (row : List Cell) (rid pid deep : ℤ) : Region :=
  let geo := (row.getD 5 defaultCell).centerVal
  let polygon := if 6 < row.length then (row.getD 6 defaultCell).polyVal else []
  let pb := parse_polygon polygon
  { id := rid, pid := pid, deep := deep,
    name := (row.getD 3 defaultCell).strVal,
    ext_path := (row.getD 4 defaultCell).strVal,
    center := parse_center geo,
    bbox := pb.2, polygons := pb.1 }

/-- The body of the row loop of GeoDataLoader.load: rows with fewer
than six cells are skipped, an int() ValueError on any of the first
three cells skips the row, and a parsed row is stored in the map and in
the list of its level. -/
def processRow (st : LoaderState) (row : List Cell) : LoaderState :=
  if row.length < 6 then st
  else
    match (row.getD 0 defaultCell).intVal, (row.getD 1 defaultCell).intVal,
        (row.getD 2 defaultCell).intVal with
    | some rid, some pid, some deep =>
      let region := mkRegion row rid pid deep
      let st2 := { st with regions := dictInsert st.regions rid region }
      if deep = 0 then { st2 with provinces := st2.provinces ++ [region] }
      else if deep = 1 then { st2 with cities := st2.cities ++ [region] }
      else if deep = 2 then { st2 with districts := st2.districts ++ [region] }
      else st2
    | _, _, _ => st

/-- GeoDataLoader.load: a no-op when already loaded, otherwise process
every row and set the loaded flag. -/
def load (st : LoaderState) (rows : List (List Cell)) : LoaderState :=
  if st.loaded then st
  else { (rows.foldl processRow st) with loaded := true }

/-! ## Spatial range engine: vehicle_tracker.VehicleTracker

The float arithmetic and the math-module primitives are embedded over
the reals. The SQL candidate query is embedded as a filter over the
track table in insertion order followed by the row limit. -/

noncomputable section

/-- Model of math.atan2 with the usual quadrant convention. -/
def atan2R (y x : ℝ) : ℝ :=
  if 0 < x then Real.arctan (y / x)
  else if x < 0 ∧ 0 ≤ y then Real.arctan (y / x) + Real.pi
  else if x < 0 ∧ y < 0 then Real.arctan (y / x) - Real.pi
  else if x = 0 ∧ 0 < y then Real.pi / 2
  else if x = 0 ∧ y < 0 then -(Real.pi / 2)
  else 0

/-- math.radians. -/
def radians (x : ℝ) : ℝ := x * Real.pi / 180

/-- VehicleTracker.EARTH_RADIUS in meters. -/
def EARTH_RADIUS : ℝ := 6371000

/-- VehicleTracker._calculate_bbox: the degree-space rectangle
(min lng, max lng, min lat, max lat) derived from the radius by the
equirectangular approximation. -/
def calculate_bbox (lng lat radius_m : ℝ) : ℝ × ℝ × ℝ × ℝ :=
  let lat_delta := radius_m / 111000
  let lng_delta := radius_m / (111000 * Real.cos (radians lat))
  (lng - lng_delta, lng + lng_delta, lat - lat_delta, lat + lat_delta)

/-- VehicleTracker._haversine_distance. -/
def haversine_distance (lng1 lat1 lng2 lat2 : ℝ) : ℝ :=
  let lat1_rad := radians lat1
  let lat2_rad := radians lat2
  let delta_lat := radians (lat2 - lat1)
  let delta_lng := radians (lng2 - lng1)
  let a := Real.sin (delta_lat / 2) ^ 2 +
    Real.cos lat1_rad * Real.cos lat2_rad * Real.sin (delta_lng / 2) ^ 2
  let c := 2 * atan2R (Real.sqrt a) (Real.sqrt (1 - a))
  EARTH_RADIUS * c

/-- One row of the tracks table. -/
structure Track where
  id : ℤ
  vehicle_id : String
  lng : ℝ
  lat : ℝ
  speed : Option ℝ
  direction : Option ℝ
  recorded_at : ℤ

/-- One result dictionary of find_in_circle, the record fields plus
distance_m. -/
structure TrackHit where
  id : ℤ
  vehicle_id : String
  lng : ℝ
  lat : ℝ
  speed : Option ℝ
  direction : Option ℝ
  recorded_at : ℤ
  distance_m : ℝ

/-- Python round(x, 2) modeled as rounding to the nearest multiple of
one hundredth. -/
def round2 (x : ℝ) : ℝ := (round (100 * x) : ℤ) / 100

/-- The WHERE clause of the candidate query of find_in_circle: the
bounding-box range checks plus the optional time and vehicle filters.
An empty vehicle id is falsy in the source and adds no clause. -/
def sqlFilter (lng lat radius_m : ℝ) (startTime endTime : Option ℤ)
    (vid : Option String) (t : Track) : Bool :=
  let bb := calculate_bbox lng lat radius_m
  (decide (bb.1 ≤ t.lng) && decide (t.lng ≤ bb.2.1)) &&
  (decide (bb.2.2.1 ≤ t.lat) && decide (t.lat ≤ bb.2.2.2)) &&
  (match startTime with | none => true | some s => decide (s ≤ t.recorded_at)) &&
  (match endTime with | none => true | some e => decide (t.recorded_at ≤ e)) &&
  (match vid with | none => true | some v => if v = "" then true else t.vehicle_id == v)

/-- The result dictionary appended for a candidate within the circle. -/
def mkHit (t : Track) (d : ℝ) : TrackHit :=
  { id := t.id, vehicle_id := t.vehicle_id, lng := t.lng, lat := t.lat,
    speed := t.speed, direction := t.direction, recorded_at := t.recorded_at,
    distance_m := round2 d }

/-- The candidate loop of find_in_circle: keep candidates whose exact
haversine distance is within the radius and stop as soon as limit
results are accumulated. -/
def collectHits (lng lat radius_m : ℝ) (limit : ℕ) :
    List Track → List TrackHit → List TrackHit
  | [], acc => acc
  | t :: ts, acc =>
    if haversine_distance lng lat t.lng t.lat ≤ radius_m then
      let acc2 := acc ++ [mkHit t (haversine_distance lng lat t.lng t.lat)]
      if limit ≤ acc2.length then acc2
      else collectHits lng lat radius_m limit ts acc2
    else collectHits lng lat radius_m limit ts acc

/-- VehicleTracker.find_in_circle: bounding-box candidates capped at
twice the limit, exact circle filter with early stop, then sort by the
stored distance. -/
def find_in_circle (lng lat radius_m : ℝ) (startTime endTime : Option ℤ)
    (vehicle_id : Option String) (limit : ℕ) (tracks : List Track) : List TrackHit :=
  let candidates :=
    (tracks.filter (sqlFilter lng lat radius_m startTime endTime vehicle_id)).take (limit * 2)
  (collectHits lng lat radius_m limit candidates []).mergeSort
    (fun a b => decide (a.distance_m ≤ b.distance_m))

/-- VehicleTracker.count_in_circle: the raw bounding-box count with the
optional time filters; no circle test is applied. The WHERE clause is
the one of find_in_circle without a vehicle filter. -/
def count_in_circle (lng lat radius_m : ℝ) (startTime endTime : Option ℤ)
    (tracks : List Track) : ℕ :=
  (tracks.filter (sqlFilter lng lat radius_m startTime endTime none)).length

end

/-! ## Claims -/

/-- C8: dms_to_decimal returns degrees + minutes/60 + seconds/3600; at
(110, 3, 0) the result is exactly 110.05, and at (23, 13, 0) it is
within 1e-4 of 23.2167. -/
theorem claim_C8_dms :
    (∀ (degrees minutes : ℤ) (seconds : ℚ),
      dms_to_decimal degrees minutes seconds
        = (degrees : ℚ) + (minutes : ℚ) / 60 + seconds / 3600) ∧
    dms_to_decimal 110 3 0 = 110.05 ∧
    |dms_to_decimal 23 13 0 - 23.2167| ≤ 1 / 10000 := by
  refine ⟨fun _ _ _ => rfl, by norm_num [dms_to_decimal], ?_⟩
  have h : dms_to_decimal 23 13 0 - 23.2167 = -(1 / 30000) := by
    norm_num [dms_to_decimal]
  rw [h, abs_neg, abs_of_nonneg (by norm_num)]
  norm_num

/-- C2: point_in_region is false when the bounding box is absent or the
point fails the box test (in particular for any point strictly outside
the box); with the point inside the box it holds iff some ring of the
region contains the point. -/
theorem claim_C2_point_in_region (lon lat : ℚ) (region : Region) :
    (region.bbox = none → point_in_region lon lat region = false) ∧
    (∀ b, region.bbox = some b →
      (point_in_bbox lon lat b = false → point_in_region lon lat region = false) ∧
      ((lon < b.1 ∨ b.2.2.1 < lon ∨ lat < b.2.1 ∨ b.2.2.2 < lat) →
        point_in_region lon lat region = false) ∧
      (point_in_bbox lon lat b = true →
        (point_in_region lon lat region = true ↔
          ∃ ring ∈ region.polygons, point_in_polygon lon lat ring = true))) := by
  refine ⟨fun h => by simp [point_in_region, h], ?_⟩
  intro b hb
  have hpir : point_in_region lon lat region
      = if !point_in_bbox lon lat b then false
        else region.polygons.any (fun polygon => point_in_polygon lon lat polygon) := by
    simp [point_in_region, hb]
  refine ⟨fun hf => by rw [hpir, hf]; rfl, ?_, ?_⟩
  · intro hout
    have hf : point_in_bbox lon lat b = false := by
      cases htb : point_in_bbox lon lat b with
      | false => rfl
      | true =>
        exfalso
        simp only [point_in_bbox, Bool.and_eq_true, decide_eq_true_eq] at htb
        obtain ⟨⟨h1, h2⟩, h3, h4⟩ := htb
        rcases hout with h | h | h | h <;> linarith
    rw [hpir, hf]
    rfl
  · intro ht
    rw [hpir, ht]
    simp

/-- C3: point_in_polygon rejects rings with fewer than 3 points, and on
any ring computes the parity result of the ray-casting reference
definition over all edges including the wrap-around edge. -/
theorem claim_C3_point_in_ring (lon lat : ℚ) (ring : List (ℚ × ℚ)) :
    (ring.length < 3 → point_in_polygon lon lat ring = false) ∧
    point_in_polygon lon lat ring = rayCastRef lon lat ring :=
  ⟨fun h => by simp [point_in_polygon, h], point_in_polygon_eq_rayCastRef lon lat ring⟩

theorem claim_C3_witness :
    point_in_polygon 0 0 [(0, 0), (1, 0)] = false ∧
    point_in_polygon (1/4) (1/4) [(0, 0), (1, 0), (0, 1)]
      = rayCastRef (1/4) (1/4) [(0, 0), (1, 0), (0, 1)] :=
  ⟨(claim_C3_point_in_ring 0 0 [(0, 0), (1, 0)]).1 (by decide),
   (claim_C3_point_in_ring (1/4) (1/4) [(0, 0), (1, 0), (0, 1)]).2⟩

/-- C10: the crossing-candidate guard forces a nonzero denominator, so
the interpolation division of the ray-casting loop never divides by
zero: the checked variant of point_in_polygon never returns none. -/
theorem claim_C10_division_safe (lon lat : ℚ) (a b : ℚ × ℚ) (polygon : List (ℚ × ℚ)) :
    (isCrossingCandidate lat a b = true → b.2 - a.2 ≠ 0) ∧
    point_in_polygonChecked lon lat polygon = some (point_in_polygon lon lat polygon) := by
  constructor
  · intro hc h0
    have hba : b.2 = a.2 := by linarith [sub_eq_zero.mp h0]
    unfold isCrossingCandidate at hc
    rw [hba] at hc
    simp at hc
  · exact point_in_polygonChecked_eq lon lat polygon

theorem claim_C10_witness :
    ((0 : ℚ), (-1 : ℚ)).2 - ((0 : ℚ), (1 : ℚ)).2 ≠ 0 ∧
    point_in_polygonChecked 0 0 [(0, 0), (2, 0), (0, 2)]
      = some (point_in_polygon 0 0 [(0, 0), (2, 0), (0, 2)]) :=
  ⟨(claim_C10_division_safe 0 0 (0, 1) (0, -1) []).1 (by decide),
   (claim_C10_division_safe 0 0 (0, 1) (0, -1) [(0, 0), (2, 0), (0, 2)]).2⟩

/-- C9: loading is idempotent: a second load on an already loaded store
leaves the whole state, in particular the region map and the three
per-level lists, unchanged. -/
theorem claim_C9_load_idempotent (st : LoaderState) (rows : List (List Cell)) :
    load (load st rows) rows = load st rows ∧
    (load (load st rows) rows).regions = (load st rows).regions ∧
    (load (load st rows) rows).provinces = (load st rows).provinces ∧
    (load (load st rows) rows).cities = (load st rows).cities ∧
    (load (load st rows) rows).districts = (load st rows).districts := by
  have h : load (load st rows) rows = load st rows := by
    unfold load
    by_cases hl : st.loaded
    · simp [hl]
    · simp [hl]
  exact ⟨h, by rw [h], by rw [h], by rw [h], by rw [h]⟩

/-- C1: the resolver matches a city only when no district of the store
contains the point, a province only when no district and no city does,
and with no containing region at any level it returns the all-None
result. -/
theorem claim_C1_resolver_order (loader : LoaderState) (lon lat : ℚ)
    (hd : ∀ d ∈ loader.districts, d.deep = 2)
    (hc : ∀ c ∈ loader.cities, c.deep = 1)
    (hp : ∀ p ∈ loader.provinces, p.deep = 0) :
    (∀ r, (query loader lon lat).region = some r → r.deep = 1 →
      ∀ d ∈ loader.districts, point_in_region lon lat d = false) ∧
    (∀ r, (query loader lon lat).region = some r → r.deep = 0 →
      (∀ d ∈ loader.districts, point_in_region lon lat d = false) ∧
      (∀ c ∈ loader.cities, point_in_region lon lat c = false)) ∧
    ((∀ r ∈ loader.districts ++ loader.cities ++ loader.provinces,
        point_in_region lon lat r = false) →
      query loader lon lat = emptyResult) := by
  cases hfd : loader.districts.find? (fun d => point_in_region lon lat d) with
  | some d =>
    have hmem := List.mem_of_find?_eq_some hfd
    have hdeep := hd d hmem
    have hq : (query loader lon lat).region = some d := by simp [query, hfd]
    have hpt : point_in_region lon lat d = true := by
      simpa using List.find?_some hfd
    refine ⟨?_, ?_, ?_⟩
    · intro r hr hr1
      rw [hq] at hr
      injection hr with hr
      subst hr
      omega
    · intro r hr hr0
      rw [hq] at hr
      injection hr with hr
      subst hr
      omega
    · intro hall
      have hfalse := hall d (List.mem_append.mpr (Or.inl (List.mem_append.mpr (Or.inl hmem))))
      rw [hfalse] at hpt
      exact absurd hpt (by simp)
  | none =>
    have hnone : ∀ d ∈ loader.districts, point_in_region lon lat d = false := by
      intro d hdm
      simpa using List.find?_eq_none.mp hfd d hdm
    cases hfc : loader.cities.find? (fun c => point_in_region lon lat c) with
    | some c =>
      have hmem := List.mem_of_find?_eq_some hfc
      have hdeep := hc c hmem
      have hq : (query loader lon lat).region = some c := by simp [query, hfd, hfc]
      have hpt : point_in_region lon lat c = true := by
        simpa using List.find?_some hfc
      refine ⟨fun r hr hr1 => hnone, ?_, ?_⟩
      · intro r hr hr0
        rw [hq] at hr
        injection hr with hr
        subst hr
        omega
      · intro hall
        have hfalse := hall c (List.mem_append.mpr (Or.inl (List.mem_append.mpr (Or.inr hmem))))
        rw [hfalse] at hpt
        exact absurd hpt (by simp)
    | none =>
      have hcnone : ∀ c ∈ loader.cities, point_in_region lon lat c = false := by
        intro c hcm
        simpa using List.find?_eq_none.mp hfc c hcm
      cases hfp : loader.provinces.find? (fun p => point_in_region lon lat p) with
      | some p =>
        have hmem := List.mem_of_find?_eq_some hfp
        have hpt : point_in_region lon lat p = true := by
          simpa using List.find?_some hfp
        refine ⟨fun r hr hr1 => hnone, fun r hr hr0 => ⟨hnone, hcnone⟩, ?_⟩
        intro hall
        have hfalse := hall p (List.mem_append.mpr (Or.inr hmem))
        rw [hfalse] at hpt
        exact absurd hpt (by simp)
      | none =>
        have hq : query loader lon lat = emptyResult := by
          simp [query, hfd, hfc, hfp]
        refine ⟨?_, ?_, fun _ => hq⟩
        · intro r hr
          rw [hq] at hr
          simp [emptyResult] at hr
        · intro r hr
          rw [hq] at hr
          simp [emptyResult] at hr

/-- A district-level region used to instantiate the claims on concrete
data: a triangle with bounding box (0, 0, 2, 2). -/
def regionEx : Region :=
  { id := 1, pid := 0, deep := 2, name := "", ext_path := "", center := none,
    bbox := some (0, 0, 2, 2), polygons := [[(0, 0), (2, 0), (0, 2)]] }

def loaderEx : LoaderState :=
  { regions := [(1, regionEx)], provinces := [], cities := [],
    districts := [regionEx], loaded := true }

theorem claim_C1_witness : query loaderEx 3 3 = emptyResult :=
  (claim_C1_resolver_order loaderEx 3 3 (by decide) (by decide) (by decide)).2.2 (by decide)

theorem claim_C2_witness :
    point_in_region 3 3 regionEx = false ∧
    (point_in_region 1 1 regionEx = true ↔
      ∃ ring ∈ regionEx.polygons, point_in_polygon 1 1 ring = true) :=
  ⟨((claim_C2_point_in_region 3 3 regionEx).2 (0, 0, 2, 2) rfl).2.1
      (Or.inr (Or.inl (by norm_num))),
   ((claim_C2_point_in_region 1 1 regionEx).2 (0, 0, 2, 2) rfl).2.2 (by decide)⟩

theorem parseCoords_props (ts : List CoordTok) :
    ∀ e : Option Env,
      (parseCoords ts e).1 = (parseCoords ts none).1 ∧
      (parseCoords ts e).2.2 = (parseCoords ts none).2.2 ∧
      (parseCoords ts e).2.1 = (parseCoords ts e).1.foldl updEnv e := by
  induction ts with
  | nil => intro e; exact ⟨rfl, rfl, rfl⟩
  | cons t ts ih =>
    intro e
    cases t with
    | blank => exact ih e
    | other => exact ih e
    | pair x y =>
      cases x with
      | bad => exact ⟨rfl, rfl, rfl⟩
      | ok qx =>
        cases y with
        | bad => exact ⟨rfl, rfl, rfl⟩
        | ok qy =>
          refine ⟨?_, ?_, ?_⟩
          · show (qx, qy) :: (parseCoords ts (updEnv e (qx, qy))).1
                = (qx, qy) :: (parseCoords ts (updEnv none (qx, qy))).1
            rw [(ih (updEnv e (qx, qy))).1, (ih (updEnv none (qx, qy))).1]
          · show (parseCoords ts (updEnv e (qx, qy))).2.2
                = (parseCoords ts (updEnv none (qx, qy))).2.2
            rw [(ih (updEnv e (qx, qy))).2.1, (ih (updEnv none (qx, qy))).2.1]
          · show (parseCoords ts (updEnv e (qx, qy))).2.1
                = ((qx, qy) :: (parseCoords ts (updEnv e (qx, qy))).1).foldl updEnv e
            rw [(ih (updEnv e (qx, qy))).2.2, List.foldl_cons]

theorem parsedPoints_cons (part : Part) (rest : List Part) :
    parsedPoints (part :: rest)
      = if (parseCoords part none).2.2 then (parseCoords part none).1
        else (parseCoords part none).1 ++ parsedPoints rest := rfl

theorem parseParts_env (parts : List Part) :
    ∀ (acc : List (List (ℚ × ℚ))) (e : Option Env),
      (parseParts parts acc e).2 = (parsedPoints parts).foldl updEnv e := by
  induction parts with
  | nil => intro acc e; rfl
  | cons part rest ih =>
    intro acc e
    have hps := parseCoords_props part e
    show (if (parseCoords part e).2.2 then (acc, (parseCoords part e).2.1)
          else parseParts rest
            (if 3 ≤ (parseCoords part e).1.length then acc ++ [(parseCoords part e).1] else acc)
            (parseCoords part e).2.1).2
        = (parsedPoints (part :: rest)).foldl updEnv e
    rw [parsedPoints_cons]
    by_cases hab : (parseCoords part e).2.2
    · rw [if_pos hab, if_pos (hps.2.1 ▸ hab)]
      rw [hps.2.2, hps.1]
    · rw [if_neg hab, if_neg (fun h => hab (hps.2.1.trans h))]
      rw [ih _ (parseCoords part e).2.1, hps.2.2, hps.1, List.foldl_append]

theorem parseParts_acc_mono (parts : List Part) :
    ∀ (acc : List (List (ℚ × ℚ))) (e : Option Env),
      (parseParts parts acc e).1 ≠ [] → acc ≠ [] ∨ parsedPoints parts ≠ [] := by
  induction parts with
  | nil => intro acc e h; exact Or.inl h
  | cons part rest ih =>
    intro acc e h
    rw [parsedPoints_cons]
    have hps := parseCoords_props part e
    show acc ≠ [] ∨
      (if (parseCoords part none).2.2 then (parseCoords part none).1
       else (parseCoords part none).1 ++ parsedPoints rest) ≠ []
    by_cases hab : (parseCoords part e).2.2
    · rw [show parseParts (part :: rest) acc e = (acc, (parseCoords part e).2.1) from by
        show (if (parseCoords part e).2.2 then _ else _) = _
        rw [if_pos hab]] at h
      exact Or.inl h
    · have hstep : parseParts (part :: rest) acc e
          = parseParts rest
            (if 3 ≤ (parseCoords part e).1.length then acc ++ [(parseCoords part e).1] else acc)
            (parseCoords part e).2.1 := by
        show (if (parseCoords part e).2.2 then _ else _) = _
        rw [if_neg hab]
      rw [hstep] at h
      by_cases hlen : 3 ≤ (parseCoords part e).1.length
      · refine Or.inr ?_
        rw [if_neg (fun hx => hab (hps.2.1.trans hx))]
        have hne : (parseCoords part none).1 ≠ [] := by
          intro hnil
          rw [hps.1, hnil] at hlen
          simp at hlen
        intro hx
        exact hne (List.append_eq_nil.mp hx).1
      · rw [if_neg hlen] at h
        rcases ih acc (parseCoords part e).2.1 h with hl | hr
        · exact Or.inl hl
        · refine Or.inr ?_
          rw [if_neg (fun hx => hab (hps.2.1.trans hx))]
          intro hx
          exact hr (List.append_eq_nil.mp hx).2

theorem foldl_updEnv_isSome (pts : List (ℚ × ℚ)) :
    ∀ e : Option Env, e.isSome → (pts.foldl updEnv e).isSome := by
  induction pts with
  | nil => intro e he; exact he
  | cons p ps ih =>
    intro e he
    rw [List.foldl_cons]
    apply ih
    cases e with
    | none => rfl
    | some e => rfl

theorem foldl_updEnv_ne_nil_isSome (pts : List (ℚ × ℚ)) (h : pts ≠ []) :
    (pts.foldl updEnv none).isSome := by
  cases pts with
  | nil => exact absurd rfl h
  | cons p ps =>
    rw [List.foldl_cons]
    exact foldl_updEnv_isSome ps _ rfl

/-- C5 amended: the bounding box of a parsed boundary record is present
iff at least one valid ring was kept (so null when there are no rings),
and when present it is the min/max envelope of every point read during
the parse, including the points of parts discarded for having fewer
than 3 points and the points read before a parse error. -/
theorem claim_C5_bbox (parts : List Part) :
    ((parse_polygon parts).2.isSome ↔ (parse_polygon parts).1 ≠ []) ∧
    ((parse_polygon parts).1 ≠ [] →
      (parse_polygon parts).2 = envelope (parsedPoints parts)) := by
  have henv : (parseParts parts [] none).2 = (parsedPoints parts).foldl updEnv none :=
    parseParts_env parts [] none
  have hfst : (parse_polygon parts).1 = (parseParts parts [] none).1 := rfl
  have hsnd : (parse_polygon parts).2
      = if (parseParts parts [] none).1.isEmpty then none
        else (parseParts parts [] none).2.map
          (fun e => (e.minLon, e.minLat, e.maxLon, e.maxLat)) := rfl
  constructor
  · constructor
    · intro hs
      rw [hfst]
      intro hnil
      rw [hsnd, hnil] at hs
      simp at hs
    · intro hne
      rw [hfst] at hne
      have hpe : (parseParts parts [] none).1.isEmpty = false := by
        simpa using hne
      rw [hsnd, hpe]
      simp only [Bool.false_eq_true, if_false]
      have hpts : parsedPoints parts ≠ [] := by
        rcases parseParts_acc_mono parts [] none hne with hl | hr
        · exact absurd rfl hl
        · exact hr
      have hsome := foldl_updEnv_ne_nil_isSome (parsedPoints parts) hpts
      rw [Option.isSome_map', henv]
      exact hsome
  · intro hne
    rw [hfst] at hne
    have hpe : (parseParts parts [] none).1.isEmpty = false := by
      simpa using hne
    rw [hsnd, hpe]
    simp only [Bool.false_eq_true, if_false]
    rw [henv]
    rfl

/-- A boundary string with one valid triangular part and a second part
of a single far-away point: the stray point enters the envelope but no
ring. -/
def parts5 : List Part :=
  [[CoordTok.pair (NumTok.ok 0) (NumTok.ok 0), CoordTok.pair (NumTok.ok 0) (NumTok.ok 1),
    CoordTok.pair (NumTok.ok 1) (NumTok.ok 0)],
   [CoordTok.pair (NumTok.ok 100) (NumTok.ok 100)]]

/-- C5 counterexample: the parsed bounding box is not the envelope of
the points of the kept rings: a part with fewer than 3 points
contributes to the box but to no ring. -/
theorem claim_C5_counterexample :
    (parse_polygon parts5).1 = [[(0, 0), (0, 1), (1, 0)]] ∧
    (parse_polygon parts5).2 = some (0, 0, 100, 100) ∧
    envelope ((parse_polygon parts5).1.flatten) = some (0, 0, 1, 1) ∧
    (parse_polygon parts5).2 ≠ envelope ((parse_polygon parts5).1.flatten) :=
  ⟨by decide, by decide, by decide, by decide⟩

theorem claim_C5_witness :
    ((parse_polygon parts5).2.isSome ↔ (parse_polygon parts5).1 ≠ []) ∧
    (parse_polygon parts5).2 = envelope (parsedPoints parts5) :=
  ⟨(claim_C5_bbox parts5).1, (claim_C5_bbox parts5).2 (by decide)⟩

def emptyLoader : LoaderState :=
  { regions := [], provinces := [], cities := [], districts := [], loaded := false }

/-- A well-formed record except that it has only the first five
fields. -/
def fiveRow : List Cell :=
  [{ defaultCell with intVal := some 1 }, { defaultCell with intVal := some 0 },
   { defaultCell with intVal := some 0 }, { defaultCell with strVal := "a" },
   { defaultCell with strVal := "a b" }]

/-- The same record padded to six fields. -/
def sixRow : List Cell :=
  [{ defaultCell with intVal := some 1 }, { defaultCell with intVal := some 0 },
   { defaultCell with intVal := some 0 }, { defaultCell with strVal := "a" },
   { defaultCell with strVal := "a b" }, defaultCell]

/-- C6 counterexample: a record carrying exactly the first five fields,
all of them well formed, is skipped by the loader: the source requires
at least six fields, so the load of such a record stores nothing. -/
theorem claim_C6_counterexample :
    fiveRow.length = 5 ∧
    load emptyLoader [fiveRow]
      = { regions := [], provinces := [], cities := [], districts := [],
          loaded := true } :=
  ⟨rfl, rfl⟩

/-- C6 amended: a record with fewer than six fields is skipped; a
record with at least six fields whose first three cells parse as
integers is stored in the region map; an integer parse failure on any
of the first three cells rejects only that record; and the load
continues past every such skipped record. -/
theorem claim_C6_load_skips (st : LoaderState) (row : List Cell)
    (pre post : List (List Cell)) :
    (row.length < 6 → processRow st row = st) ∧
    (6 ≤ row.length →
      ((row.getD 0 defaultCell).intVal = none ∨ (row.getD 1 defaultCell).intVal = none ∨
        (row.getD 2 defaultCell).intVal = none) → processRow st row = st) ∧
    (∀ rid pid deep : ℤ, 6 ≤ row.length →
      (row.getD 0 defaultCell).intVal = some rid →
      (row.getD 1 defaultCell).intVal = some pid →
      (row.getD 2 defaultCell).intVal = some deep →
      (processRow st row).regions = dictInsert st.regions rid (mkRegion row rid pid deep)) ∧
    ((row.length < 6 ∨ (row.getD 0 defaultCell).intVal = none ∨
        (row.getD 1 defaultCell).intVal = none ∨ (row.getD 2 defaultCell).intVal = none) →
      load st (pre ++ row :: post) = load st (pre ++ post)) := by
  have hshort : ∀ s : LoaderState, row.length < 6 → processRow s row = s := by
    intro s h
    unfold processRow
    rw [if_pos h]
  have hbadint : ∀ s : LoaderState,
      ((row.getD 0 defaultCell).intVal = none ∨ (row.getD 1 defaultCell).intVal = none ∨
        (row.getD 2 defaultCell).intVal = none) → processRow s row = s := by
    intro s hbad
    unfold processRow
    by_cases h6 : row.length < 6
    · rw [if_pos h6]
    · rw [if_neg h6]
      rcases hbad with h | h | h
      · rw [h]
      · rw [h]
        cases h0 : (row.getD 0 defaultCell).intVal <;> rfl
      · rw [h]
        cases h0 : (row.getD 0 defaultCell).intVal
        · rfl
        · cases h1 : (row.getD 1 defaultCell).intVal <;> rfl
  have hgood : ∀ rid pid deep : ℤ, 6 ≤ row.length →
      (row.getD 0 defaultCell).intVal = some rid →
      (row.getD 1 defaultCell).intVal = some pid →
      (row.getD 2 defaultCell).intVal = some deep →
      (processRow st row).regions = dictInsert st.regions rid (mkRegion row rid pid deep) := by
    intro rid pid deep h6 h0 h1 h2
    unfold processRow
    rw [if_neg (by omega), h0, h1, h2]
    show (let region := mkRegion row rid pid deep
      let st2 := { st with regions := dictInsert st.regions rid region }
      if deep = 0 then { st2 with provinces := st2.provinces ++ [region] }
      else if deep = 1 then { st2 with cities := st2.cities ++ [region] }
      else if deep = 2 then { st2 with districts := st2.districts ++ [region] }
      else st2).regions = dictInsert st.regions rid (mkRegion row rid pid deep)
    split_ifs <;> rfl
  refine ⟨fun h => hshort st h, fun _ hbad => hbadint st hbad, hgood, ?_⟩
  intro hbad
  have hskip : ∀ s : LoaderState, processRow s row = s := by
    intro s
    rcases hbad with h | hbad2
    · exact hshort s h
    · exact hbadint s hbad2
  unfold load
  by_cases hl : st.loaded
  · rw [if_pos hl, if_pos hl]
  · rw [if_neg hl, if_neg hl]
    have hfold : (pre ++ row :: post).foldl processRow st
        = (pre ++ post).foldl processRow st := by
      rw [List.foldl_append, List.foldl_append, List.foldl_cons, hskip]
    rw [hfold]

theorem claim_C6_witness :
    processRow emptyLoader fiveRow = emptyLoader ∧
    (processRow emptyLoader sixRow).regions
      = dictInsert emptyLoader.regions 1 (mkRegion sixRow 1 0 0) ∧
    load emptyLoader ([] ++ fiveRow :: [sixRow]) = load emptyLoader ([] ++ [sixRow]) :=
  ⟨(claim_C6_load_skips emptyLoader fiveRow [] []).1 (by decide),
   (claim_C6_load_skips emptyLoader sixRow [] []).2.2.1 1 0 0 (by decide) rfl rfl rfl,
   (claim_C6_load_skips emptyLoader fiveRow [] [sixRow]).2.2.2 (Or.inl (by decide))⟩

theorem collectHits_forall (lng lat radius_m : ℝ) (limit : ℕ) (ts : List Track) :
    ∀ acc : List TrackHit,
      (∀ x ∈ acc, haversine_distance lng lat x.lng x.lat ≤ radius_m) →
      ∀ x ∈ collectHits lng lat radius_m limit ts acc,
        haversine_distance lng lat x.lng x.lat ≤ radius_m := by
  induction ts with
  | nil => intro acc hacc x hx; exact hacc x hx
  | cons t ts ih =>
    intro acc hacc x hx
    simp only [collectHits] at hx
    by_cases hd : haversine_distance lng lat t.lng t.lat ≤ radius_m
    · rw [if_pos hd] at hx
      have hacc2 : ∀ y ∈ acc ++ [mkHit t (haversine_distance lng lat t.lng t.lat)],
          haversine_distance lng lat y.lng y.lat ≤ radius_m := by
        intro y hy
        rcases List.mem_append.mp hy with h | h
        · exact hacc y h
        · have hy2 := List.mem_singleton.mp h
          subst hy2
          simpa [mkHit] using hd
      by_cases hlim : limit ≤ (acc ++ [mkHit t (haversine_distance lng lat t.lng t.lat)]).length
      · rw [if_pos hlim] at hx
        exact hacc2 x hx
      · rw [if_neg hlim] at hx
        exact ih _ hacc2 x hx
    · rw [if_neg hd] at hx
      exact ih acc hacc x hx

theorem collectHits_length (lng lat radius_m : ℝ) (limit : ℕ) (ts : List Track) :
    ∀ acc : List TrackHit, acc.length < limit →
      (collectHits lng lat radius_m limit ts acc).length ≤ limit := by
  induction ts with
  | nil =>
    intro acc h
    simpa [collectHits] using Nat.le_of_lt h
  | cons t ts ih =>
    intro acc h
    simp only [collectHits]
    by_cases hd : haversine_distance lng lat t.lng t.lat ≤ radius_m
    · rw [if_pos hd]
      by_cases hlim : limit ≤ (acc ++ [mkHit t (haversine_distance lng lat t.lng t.lat)]).length
      · rw [if_pos hlim]
        simp only [List.length_append, List.length_singleton]
        omega
      · rw [if_neg hlim]
        apply ih
        simp only [List.length_append, List.length_singleton] at hlim ⊢
        omega
    · rw [if_neg hd]
      exact ih acc h

/-- C4: every record returned by find_in_circle is within haversine
distance radius_m of the center, at most limit records are returned,
and the stored distances are non-decreasing in list order. -/
theorem claim_C4_range_query (lng lat radius_m : ℝ) (startTime endTime : Option ℤ)
    (vehicle_id : Option String) (limit : ℕ) (tracks : List Track) :
    (find_in_circle lng lat radius_m startTime endTime vehicle_id limit tracks).Forall
      (fun x => haversine_distance lng lat x.lng x.lat ≤ radius_m) ∧
    (find_in_circle lng lat radius_m startTime endTime vehicle_id limit tracks).length
      ≤ limit ∧
    (find_in_circle lng lat radius_m startTime endTime vehicle_id limit tracks).Pairwise
      (fun a b => a.distance_m ≤ b.distance_m) := by
  have hfic : find_in_circle lng lat radius_m startTime endTime vehicle_id limit tracks
      = (collectHits lng lat radius_m limit
          ((tracks.filter (sqlFilter lng lat radius_m startTime endTime vehicle_id)).take
            (limit * 2)) []).mergeSort
          (fun a b => decide (a.distance_m ≤ b.distance_m)) := rfl
  refine ⟨?_, ?_, ?_⟩
  · rw [List.forall_iff_forall_mem]
    intro x hx
    rw [hfic, List.mem_mergeSort] at hx
    exact collectHits_forall lng lat radius_m limit _ [] (by simp) x hx
  · rw [hfic, List.length_mergeSort]
    rcases Nat.eq_zero_or_pos limit with h0 | hpos
    · subst h0
      simp [collectHits]
    · exact collectHits_length lng lat radius_m limit _ [] (by simpa using hpos)
  · rw [hfic]
    have hs := @List.sorted_mergeSort TrackHit
      (fun a b => decide (a.distance_m ≤ b.distance_m))
      (fun a b c hab hbc => decide_eq_true
        (le_trans (of_decide_eq_true hab) (of_decide_eq_true hbc)))
      (fun a b => by
        rcases le_total a.distance_m b.distance_m with h | h <;> simp [h])
      (collectHits lng lat radius_m limit
        ((tracks.filter (sqlFilter lng lat radius_m startTime endTime vehicle_id)).take
          (limit * 2)) [])
    exact hs.imp (fun h => of_decide_eq_true h)

/-- C7 amended: count_in_circle is exactly the number of records whose
coordinate lies in the derived degree-space rectangle after the
optional time filters, with no circle test; it is at least the number
of records in that rectangle whose haversine distance to the center is
within the radius. The rectangle is not a superset of the circle for
every center, so the unrestricted inequality fails (see the
counterexample). -/
theorem claim_C7_count (lng lat radius_m : ℝ) (startTime endTime : Option ℤ)
    (tracks : List Track) :
    count_in_circle lng lat radius_m startTime endTime tracks
      = tracks.countP (fun t =>
          decide ((calculate_bbox lng lat radius_m).1 ≤ t.lng) &&
          decide (t.lng ≤ (calculate_bbox lng lat radius_m).2.1) &&
          decide ((calculate_bbox lng lat radius_m).2.2.1 ≤ t.lat) &&
          decide (t.lat ≤ (calculate_bbox lng lat radius_m).2.2.2) &&
          (startTime.all fun s => decide ((s : ℤ) ≤ t.recorded_at)) &&
          (endTime.all fun e => decide (t.recorded_at ≤ e))) ∧
    (tracks.filter (fun t => sqlFilter lng lat radius_m startTime endTime none t &&
        decide (haversine_distance lng lat t.lng t.lat ≤ radius_m))).length
      ≤ count_in_circle lng lat radius_m startTime endTime tracks := by
  constructor
  · unfold count_in_circle
    rw [← List.countP_eq_length_filter]
    apply List.countP_congr
    intro t ht
    cases startTime <;> cases endTime <;>
      simp [sqlFilter, Option.all, Bool.and_eq_true, decide_eq_true_eq] <;> tauto
  · unfold count_in_circle
    rw [← List.countP_eq_length_filter, ← List.countP_eq_length_filter]
    apply List.countP_mono_left
    intro x hx h
    simp only [Bool.and_eq_true] at h
    exact h.1

/-- A track record sitting exactly at a degenerate query center. -/
def poleTrack : Track :=
  { id := 1, vehicle_id := "v", lng := 0, lat := 180, speed := none,
    direction := none, recorded_at := 0 }

/-- C7 counterexample: at center latitude 180 the cosine correction is
negative, the derived rectangle is empty, and count_in_circle returns
0 although a record at the center itself has haversine distance 0
within the radius: the bounding-box count is not an upper bound of the
circle count for every center. -/
theorem claim_C7_counterexample :
    count_in_circle 0 180 100 none none [poleTrack] = 0 ∧
    (([poleTrack] : List Track).filter (fun t =>
        decide (haversine_distance 0 180 t.lng t.lat ≤ 100))).length = 1 := by
  have hcos : Real.cos (radians 180) = -1 := by
    rw [show radians 180 = Real.pi from by unfold radians; ring, Real.cos_pi]
  constructor
  · have h1 : ¬ ((calculate_bbox 0 180 100).1 ≤ poleTrack.lng) := by
      show ¬ ((0 : ℝ) - 100 / (111000 * Real.cos (radians 180)) ≤ (0 : ℝ))
      rw [hcos]
      norm_num
    have hsf : sqlFilter 0 180 100 none none none poleTrack = false := by
      simp only [sqlFilter]
      rw [decide_eq_false h1]
      simp
    show ([poleTrack].filter (sqlFilter 0 180 100 none none none)).length = 0
    simp [hsf]
  · have hzero : haversine_distance 0 180 0 180 = 0 := by
      simp only [haversine_distance]
      have h180 : (180 : ℝ) - 180 = 0 := by norm_num
      have h00 : (0 : ℝ) - 0 = 0 := by norm_num
      have hr0 : radians 0 = 0 := by unfold radians; ring
      rw [h180, h00, hr0]
      have hat : atan2R 0 1 = 0 := by
        unfold atan2R
        rw [if_pos one_pos]
        norm_num [Real.arctan_zero]
      norm_num [Real.sin_zero, hcos]
      exact Or.inr hat
    have hkeep : decide (haversine_distance 0 180 poleTrack.lng poleTrack.lat ≤ 100) = true := by
      have hp : haversine_distance 0 180 poleTrack.lng poleTrack.lat = 0 := hzero
      rw [hp]
      exact decide_eq_true (by norm_num)
    simp [hkeep]

end ChinaLocation
